import Mathlib

/-!
Shallow embedding of the virtual-memory core of the svm_kernel repository:
the generic two-level mapper (`src/crates/x86/.../mapped_page_table.rs`),
the boot-info frame allocator and identity-mapping policy
(`src/svm_kernel/src/memory.rs`), and the bootstrap page-table builder
(`src/svm_kernel/external/bootloader/src/mmu.rs`).

Machine integers are modelled as `Nat`; page-table entries are modelled as
an (address, flag-bits) pair, which is exactly the information content of
the packed 64-bit entry word (the address field is stored 4 KiB-masked and
the flag bits are disjoint from it, so the pair model is lossless).
-/

namespace Svm

/-!
## Page-table flag bits

Modelled from the spec: the page-table entry flag encoding
(`page_table.rs` of the repository x86 crate is not under src); the bit
positions are the hardware-defined x86 page-table bits named by the spec
(present, writable, user-accessible, no-cache, huge-page, no-execute).
-/

def PRESENT : Nat := 1

def WRITABLE : Nat := 2

def USER_ACCESSIBLE : Nat := 4

def WRITE_THROUGH : Nat := 8

def NO_CACHE : Nat := 16

def ACCESSED : Nat := 32

def DIRTY : Nat := 64

def HUGE_PAGE : Nat := 128

def GLOBAL : Nat := 256

def NO_EXECUTE : Nat := 2 ^ 63

/-- Flag-set containment: `flagsContain f g` is Rust
`PageTableFlags::contains`, i.e. every bit of `g` is set in `f`. -/
def flagsContain (f g : Nat) : Prop := f &&& g = g

instance (f g : Nat) : Decidable (flagsContain f g) := by
  unfold flagsContain; infer_instance

/-!
## Page-table entries

Modelled from the spec: the packed entry word of `page_table.rs` (not under
src) holds a frame-aligned physical address plus flag bits; `is_unused`
tests the whole word against zero, `set_addr` stores address and flags,
`frame()` fails with `FrameNotPresent` when the present bit is clear and
with `HugeFrame` when the huge-page bit is set, else yields the frame
containing the stored address.
-/

structure Entry where
  addr : Nat
  flags : Nat
deriving DecidableEq, Repr

def Entry.unused : Entry := ⟨0, 0⟩

def Entry.isUnused (e : Entry) : Prop := e = Entry.unused

instance (e : Entry) : Decidable e.isUnused := by
  unfold Entry.isUnused; infer_instance

/-- Rust `PageTableEntry::set_addr(addr, flags)`. -/
def Entry.setAddr (a f : Nat) : Entry := ⟨a, f⟩

/-- Rust `PageTableEntry::set_flags(flags)`: keeps the address field. -/
def Entry.setFlags (e : Entry) (f : Nat) : Entry := ⟨e.addr, f⟩

/-- `PhysFrame::<Size4KiB>::containing_address`: align down to 4 KiB. -/
def containing4K (a : Nat) : Nat := a - a % 4096

/-- `PhysFrame::<Size4MiB>::containing_address`: align down to 4 MiB. -/
def containing4M (a : Nat) : Nat := a - a % (2 ^ 22)

inductive FrameError where
  | FrameNotPresent
  | HugeFrame
deriving DecidableEq, Repr

/-- Rust `PageTableEntry::frame()`. -/
def Entry.frame (e : Entry) : Except FrameError Nat :=
  if ¬ flagsContain e.flags PRESENT then .error .FrameNotPresent
  else if flagsContain e.flags HUGE_PAGE then .error .HugeFrame
  else .ok (containing4K e.addr)

/-!
## Tables and the mapper state

A page table is a map from index to entry; physical memory holding the
level-1 tables is a map from (4 KiB-aligned) frame address to table. The
`MappedPageTable` of `mapped_page_table.rs` owns the level-2 table and a
physical-to-virtual capability; the capability is modelled by indexing the
`mem` heap directly with the frame address. The frame allocator argument
of `map_to` is modelled as the list of frame addresses it will yield.
-/

def Table := Nat → Entry

def Table.zero : Table := fun _ => Entry.unused

def Table.set (t : Table) (i : Nat) (e : Entry) : Table :=
  fun j => if j = i then e else t j

structure MapperState where
  p2 : Table
  mem : Nat → Table
  alloc : List Nat

def MapperState.setP2 (st : MapperState) (i : Nat) (e : Entry) : MapperState :=
  { st with p2 := st.p2.set i e }

def MapperState.setMem (st : MapperState) (f : Nat) (t : Table) : MapperState :=
  { st with mem := fun g => if g = f then t else st.mem g }

/-- Virtual-address index into the level-2 table (bits 22..31). -/
def p2Index (a : Nat) : Nat := (a / 2 ^ 22) % 1024

/-- Virtual-address index into a level-1 table (bits 12..21). -/
def p1Index (a : Nat) : Nat := (a / 2 ^ 12) % 1024

/-- Low twelve bits of a virtual address (`VirtAddr::page_offset`). -/
def pageOffset (a : Nat) : Nat := a % 4096

/-!
## map_to for 4 MiB pages (`map_to_4mib`)
-/

inductive MapToError where
  | PageAlreadyMapped
  | ParentEntryHugePage
  | FrameAllocationFailed
deriving DecidableEq, Repr

/-- Outcome of a mapper call: success, a returned error, or a Rust panic
(`create_next_table` panics when an entry it just ensured mapped reports
not-present). The state component carries the mutations performed up to
the point of return. -/
inductive MapRes where
  | ok
  | err (e : MapToError)
  | panicked
deriving DecidableEq, Repr

/-- `MappedPageTable::map_to_4mib`: reject if the level-2 entry is in use,
else store the frame address with the huge-page bit forced into the flags. -/
def map4M (st : MapperState) (p2i : Nat) (frameAddr flags : Nat) :
    MapRes × MapperState :=
  if ¬ (st.p2 p2i).isUnused then (.err .PageAlreadyMapped, st)
  else (.ok, st.setP2 p2i (Entry.setAddr frameAddr (flags ||| HUGE_PAGE)))

/-!
## map_to for 4 KiB pages (`map_to_4kib` via `PageTableWalker::create_next_table`)
-/

/-- Result of `create_next_table` on the level-2 entry: the frame address
of the level-1 table on success. Mirrors the source: if the entry is
unused, allocate a frame, install it with the insert flags and zero the
fresh table; if the entry is used but lacks some requested non-empty
insert flags, widen its flags by union; then walking the entry fails on a
huge page and panics when the entry is still not present. -/
def createNextTable (st : MapperState) (p2i : Nat) (insertFlags : Nat) :
    (MapRes × Option Nat) × MapperState :=
  let e := st.p2 p2i
  if e.isUnused then
    match st.alloc with
    | [] => ((.err .FrameAllocationFailed, none), st)
    | f :: rest =>
      let e1 := Entry.setAddr f insertFlags
      let st1 : MapperState := { (st.setP2 p2i e1) with alloc := rest }
      match e1.frame with
      | .error .FrameNotPresent => ((.panicked, none), st1)
      | .error .HugeFrame => ((.err .ParentEntryHugePage, none), st1)
      | .ok p1f => ((.ok, some p1f), st1.setMem p1f Table.zero)
  else
    let e1 :=
      if insertFlags ≠ 0 ∧ ¬ flagsContain e.flags insertFlags then
        e.setFlags (e.flags ||| insertFlags)
      else e
    let st1 := st.setP2 p2i e1
    match e1.frame with
    | .error .FrameNotPresent => ((.panicked, none), st1)
    | .error .HugeFrame => ((.err .ParentEntryHugePage, none), st1)
    | .ok p1f => ((.ok, some p1f), st1)

/-- `MappedPageTable::map_to_4kib`: ensure the level-1 table exists, then
reject if the terminal entry is in use, else install the frame. -/
def map4K (st : MapperState) (p2i p1i : Nat) (frameAddr flags pflags : Nat) :
    MapRes × MapperState :=
  match createNextTable st p2i pflags with
  | ((.ok, some p1f), st1) =>
    let t := st1.mem p1f
    if ¬ (t p1i).isUnused then (.err .PageAlreadyMapped, st1)
    else (.ok, st1.setMem p1f (t.set p1i (Entry.setAddr frameAddr flags)))
  | ((r, _), st1) => (r, st1)

/-!
## unmap (`Mapper<Size4MiB>::unmap` and `Mapper<Size4KiB>::unmap`)
-/

inductive UnmapError where
  | PageNotMapped
  | ParentEntryHugePage
  | InvalidFrameAddress (a : Nat)
deriving DecidableEq, Repr

inductive UnmapRes where
  | ok (frameAddr : Nat)
  | err (e : UnmapError)
deriving DecidableEq, Repr

/-- `Mapper<Size4MiB>::unmap`: not present, then not huge, then the stored
address must be 4 MiB aligned, then clear the entry and return the frame. -/
def unmap4M (st : MapperState) (p2i : Nat) : UnmapRes × MapperState :=
  let e := st.p2 p2i
  if ¬ flagsContain e.flags PRESENT then (.err .PageNotMapped, st)
  else if ¬ flagsContain e.flags HUGE_PAGE then (.err .ParentEntryHugePage, st)
  else if ¬ e.addr % 2 ^ 22 = 0 then (.err (.InvalidFrameAddress e.addr), st)
  else (.ok e.addr, st.setP2 p2i Entry.unused)

/-- `Mapper<Size4KiB>::unmap`: walk to the level-1 table (errors converted
by the `From<PageTableWalkError> for UnmapError` impl), take the terminal
entry frame (errors converted by the `FrameError` match), clear it. -/
def unmap4K (st : MapperState) (p2i p1i : Nat) : UnmapRes × MapperState :=
  match (st.p2 p2i).frame with
  | .error .FrameNotPresent => (.err .PageNotMapped, st)
  | .error .HugeFrame => (.err .ParentEntryHugePage, st)
  | .ok p1f =>
    let t := st.mem p1f
    match (t p1i).frame with
    | .error .FrameNotPresent => (.err .PageNotMapped, st)
    | .error .HugeFrame => (.err .ParentEntryHugePage, st)
    | .ok fr => (.ok fr, st.setMem p1f (t.set p1i Entry.unused))

/-!
## translate (`Translate::translate`)
-/

inductive MappedSize where
  | Size4KiB
  | Size4MiB
deriving DecidableEq, Repr

inductive TranslateResult where
  | NotMapped
  | InvalidFrameAddress (a : Nat)
  | Mapped (size : MappedSize) (frameAddr offset flags : Nat)
deriving DecidableEq, Repr

/-- `Translate::translate` for `MappedPageTable`: walk the level-2 entry;
a huge-page hit reports the 4 MiB frame with offset `addr & 0o_777_7777`
(the literal mask of the source); otherwise read the level-1 entry and
report the 4 KiB frame with offset `addr.page_offset()`. -/
def translate (st : MapperState) (a : Nat) : TranslateResult :=
  match (st.p2 (p2Index a)).frame with
  | .error .FrameNotPresent => .NotMapped
  | .error .HugeFrame =>
    let e := st.p2 (p2Index a)
    .Mapped .Size4MiB (containing4M e.addr) (a &&& 0o7777777) e.flags
  | .ok p1f =>
    let e1 := st.mem p1f (p1Index a)
    if e1.isUnused then .NotMapped
    else if ¬ e1.addr % 4096 = 0 then .InvalidFrameAddress e1.addr
    else .Mapped .Size4KiB e1.addr (pageOffset a) e1.flags

/-!
## Boot memory map and the BootInfoFrameAllocator (`memory.rs`)

Modelled from the spec: the bootloader `memory_map` module is not under
src; a memory region is a (physical address range, region type) pair and
`FrameRange` carries a start and end address with `size = end - start`.
-/

inductive MemoryRegionType where
  | Usable
  | Reserved
  | Empty
deriving DecidableEq, Repr

structure MemoryRegion where
  startAddr : Nat
  endAddr : Nat
  typ : MemoryRegionType
deriving DecidableEq, Repr

/-- `MemoryRegion::empty()`. -/
def MemoryRegion.emptyRegion : MemoryRegion := ⟨0, 0, .Empty⟩

def MemoryRegion.size (r : MemoryRegion) : Nat := r.endAddr - r.startAddr

/-- Rust `(s..e).step_by(k)`: the addresses `s, s+k, ...` strictly below
`e`. -/
def stepRange (s e k : Nat) : List Nat :=
  (List.range ((e - s + k - 1) / k)).map (fun i => s + i * k)

/-- `BootInfoFrameAllocator::usable_frames::<T>` with `T::SIZE = sz`:
filter the usable regions, shrink the end to a multiple of the size, raise
the start to alignment (dropping the region if that passes its end),
discard regions smaller than one frame, flatten to frame-start addresses
stepping by the size, and wrap each in `PhysFrame::containing_address`. -/
def usableFrames (sz : Nat) (mmap : List MemoryRegion) : List Nat :=
  let usable := mmap.filter (fun r => r.typ = .Usable)
  let adj1 := usable.map (fun r =>
    let diff := r.size % sz
    if diff ≠ 0 then ⟨r.startAddr, r.endAddr - diff, r.typ⟩ else r)
  let adj2 := adj1.map (fun r =>
    let rest := r.startAddr % sz
    if rest ≠ 0 then
      let new := r.startAddr + (sz - rest)
      if new > r.endAddr then MemoryRegion.emptyRegion
      else ⟨new, r.endAddr, r.typ⟩
    else r)
  let adj3 := adj2.filter (fun r => sz ≤ r.size)
  let addrs := adj3.flatMap (fun r => stepRange r.startAddr r.endAddr sz)
  addrs.map (fun a => a - a % sz)

structure AllocState where
  memoryMap : List MemoryRegion
  next : Nat
deriving Repr

/-- `FrameAllocator<Size4KiB>::allocate_frame`: take element `next` of the
4 KiB usable-frame sequence and advance the cursor by one. -/
def allocate4K (st : AllocState) : Option Nat × AllocState :=
  ((usableFrames 4096 st.memoryMap).get? st.next, { st with next := st.next + 1 })

/-- `FrameAllocator<Size2MiB>::allocate_frame`: take element `next` of the
2 MiB usable-frame sequence and advance the cursor by 512. -/
def allocate2M (st : AllocState) : Option Nat × AllocState :=
  ((usableFrames (2 ^ 21) st.memoryMap).get? st.next, { st with next := st.next + 512 })

/-- Iterate an allocation step `n` times and report the `n`-th result
(`allocNth step st 0` is the result of the first call). -/
def allocNth (step : AllocState → Option Nat × AllocState) (st : AllocState) :
    Nat → Option Nat
  | 0 => (step st).1
  | n + 1 => allocNth step (step st).2 n

/-!
## The identity-mapping policy (`id_map` of `memory.rs`)

The kernel-side mapper and translator come from the external `x86_64`
crate (4-level paging, sizes 4 KiB / 2 MiB / 1 GiB); `id_map` consumes
only the `TranslateResult` of the candidate address and the mapper's
`identity_map` effect, so the embedding takes the translate result as
input and records whether `identity_map` was invoked. `identityMapOk`
abstracts whether that call (external-crate code) succeeds.
-/

inductive KSize where
  | Size4KiB
  | Size2MiB
  | Size1GiB
deriving DecidableEq, Repr

def KSize.bytes : KSize → Nat
  | .Size4KiB => 4096
  | .Size2MiB => 2 ^ 21
  | .Size1GiB => 2 ^ 30

/-- `PhysFrame::<T>::containing_address` for the kernel-side sizes. -/
def containingK (s : KSize) (a : Nat) : Nat := a - a % s.bytes

inductive KTranslateResult where
  | NotMapped
  | InvalidFrameAddress (a : Nat)
  | Mapped (size : KSize) (frameAddr : Nat) (flags : Nat)
deriving DecidableEq, Repr

inductive IdMapError where
  | FrameAllocationFailed
  | MappingIsNotIdentity (requested existing : Nat)
  | AlreadyMappedDiffFlags (flags : Nat)
deriving DecidableEq, Repr

/-- Whether `id_map` invoked `mapper.identity_map` (the only mutating
action it can take). -/
inductive IdMapAction where
  | noChange
  | mappedFresh
deriving DecidableEq, Repr

/-- `id_map(mapper, frame_allocator, my_frame, add_flags)` as a function
of the translate result `tr` at the frame's own address. `my_flags` is
`PRESENT | add_flags`; on `NotMapped` it calls `identity_map` (mapping
every failure of that call to `FrameAllocationFailed`); on
`InvalidFrameAddress` it returns `FrameAllocationFailed`; on `Mapped` it
checks the identity and flag conditions in the order of the source
(identity first for a 4 KiB hit, flags first for 2 MiB and 1 GiB hits). -/
def idMap (tr : KTranslateResult) (myFrameAddr : Nat) (addFlags : Option Nat)
    (identityMapOk : Bool) : Except IdMapError Unit × IdMapAction :=
  let myFlags := PRESENT ||| addFlags.getD 0
  match tr with
  | .NotMapped =>
    if identityMapOk then (.ok (), .mappedFresh)
    else (.error .FrameAllocationFailed, .noChange)
  | .InvalidFrameAddress _ => (.error .FrameAllocationFailed, .noChange)
  | .Mapped size frameAddr flags =>
    match size with
    | .Size4KiB =>
      let myAddr := containingK .Size4KiB myFrameAddr
      if myAddr ≠ frameAddr then
        (.error (.MappingIsNotIdentity myAddr frameAddr), .noChange)
      else if ¬ flagsContain flags myFlags then
        (.error (.AlreadyMappedDiffFlags flags), .noChange)
      else (.ok (), .noChange)
    | .Size2MiB =>
      if ¬ flagsContain flags myFlags then
        (.error (.AlreadyMappedDiffFlags flags), .noChange)
      else if containingK .Size2MiB myFrameAddr ≠ frameAddr then
        (.error (.MappingIsNotIdentity (containingK .Size2MiB myFrameAddr) frameAddr), .noChange)
      else (.ok (), .noChange)
    | .Size1GiB =>
      if ¬ flagsContain flags myFlags then
        (.error (.AlreadyMappedDiffFlags flags), .noChange)
      else if containingK .Size1GiB myFrameAddr ≠ frameAddr then
        (.error (.MappingIsNotIdentity (containingK .Size1GiB myFrameAddr) frameAddr), .noChange)
      else (.ok (), .noChange)

/-!
## The bootstrap table builder (`mmu.rs`)

Modelled from the spec where the helpers are not under src:
`get_region_by_addr` returns the memory-map region containing the given
address (the map is an ordered sequence of disjoint ranges), and the crate
constants are `ONE_GIG = 2^30`, `TWO_MEG = 2^21`, `ONE_MEG = 2^20`. The
bootstrap tables are 512-entry long-mode tables with 64-bit entries.
-/

def getRegionByAddr (mmap : List MemoryRegion) (a : Nat) : Option MemoryRegion :=
  mmap.find? (fun r => decide (r.startAddr ≤ a) && decide (a < r.endAddr))

def ONE_GIG : Nat := 2 ^ 30

def TWO_MEG : Nat := 2 ^ 21

def ONE_MEG : Nat := 2 ^ 20

/-- The level-2 (pde) entry written by the inner loop of
`generate_page_table` for table `pdpeI` (0..4) at index `pdeI` (0..512):
the identity address is classified by `get_region_by_addr`; a usable
region gives a writable huge page, any other region a no-execute huge
page, and no region leaves the zeroed entry untouched (`continue`). -/
def bootstrapP2Entry (mmap : List MemoryRegion) (pdpeI pdeI : Nat) : Entry :=
  match getRegionByAddr mmap (pdpeI * ONE_GIG + pdeI * TWO_MEG) with
  | none => Entry.unused
  | some r =>
    match r.typ with
    | .Usable => Entry.setAddr (pdpeI * ONE_GIG + pdeI * TWO_MEG)
        (PRESENT ||| WRITABLE ||| HUGE_PAGE)
    | _ => Entry.setAddr (pdpeI * ONE_GIG + pdeI * TWO_MEG)
        (PRESENT ||| HUGE_PAGE ||| NO_EXECUTE)

/-- The level-2 entry that covers physical address `a < 4 GiB` in the
hierarchy built by `generate_page_table`: table `a / 1 GiB`, index
`(a mod 1 GiB) / 2 MiB`. -/
def bootstrapEntryFor (mmap : List MemoryRegion) (a : Nat) : Entry :=
  bootstrapP2Entry mmap (a / ONE_GIG) (a % ONE_GIG / TWO_MEG)

/-- The level-1 entry at index `i` (0..512) after
`remap_first_2mb_with_4kb` with the given stack-guard address and SMP
trampoline range. The loop skips index 0 (the table was zeroed), writes
the stack-guard page present-only, trampoline pages present+writable,
pages at or below `ONE_MEG` present+no-cache+no-execute and the rest
plain present; afterwards the entry at index `0xb8000 >> 12 & 0o777` is
overwritten with the vga flags. -/
def remapP1Entry (stackGuard smpStart smpEnd : Nat) (i : Nat) : Entry :=
  if i = 0xb8000 >>> 12 &&& 0o777 then
    Entry.setAddr 0xb8000 (PRESENT ||| WRITABLE ||| NO_CACHE ||| NO_EXECUTE)
  else if i = 0 then Entry.unused
  else if i * 4096 = stackGuard then Entry.setAddr (i * 4096) PRESENT
  else if smpStart ≤ i * 4096 ∧ i * 4096 < smpEnd then
    Entry.setAddr (i * 4096) (PRESENT ||| WRITABLE)
  else if i * 4096 ≤ ONE_MEG then
    Entry.setAddr (i * 4096) (PRESENT ||| NO_CACHE ||| NO_EXECUTE)
  else Entry.setAddr (i * 4096) PRESENT

/-!
## Helper lemmas
-/

theorem flagsContain_iff (f g : Nat) :
    flagsContain f g ↔ ∀ k, g.testBit k = true → f.testBit k = true := by
  unfold flagsContain
  constructor
  · intro h k hk
    have h2 := congrArg (fun n => n.testBit k) h
    simp only [Nat.testBit_and, hk, Bool.and_true] at h2
    exact h2
  · intro h
    apply Nat.eq_of_testBit_eq
    intro k
    simp only [Nat.testBit_and]
    cases hg : g.testBit k with
    | false => simp
    | true => simp [h k hg]

theorem flagsContain_or_left (a b c : Nat) (h : flagsContain a c) :
    flagsContain (a ||| b) c := by
  rw [flagsContain_iff] at h ⊢
  intro k hk
  simp [Nat.testBit_or, h k hk]

theorem flagsContain_or_self_right (a b : Nat) : flagsContain (a ||| b) b := by
  rw [flagsContain_iff]
  intro k hk
  simp [Nat.testBit_or, hk]

theorem flagsContain_pow_iff (f k : Nat) :
    flagsContain f (2 ^ k) ↔ f.testBit k = true := by
  rw [flagsContain_iff]
  constructor
  · intro h
    exact h k Nat.testBit_two_pow_self
  · intro h j hj
    have hkj : k = j := by simpa [Nat.testBit_two_pow] using hj
    subst hkj
    exact h

theorem not_flagsContain_pow_or (a b k : Nat)
    (ha : ¬ flagsContain a (2 ^ k)) (hb : ¬ flagsContain b (2 ^ k)) :
    ¬ flagsContain (a ||| b) (2 ^ k) := by
  rw [flagsContain_pow_iff] at ha hb ⊢
  simp only [Nat.testBit_or]
  simp only [Bool.not_eq_true] at ha hb
  simp [ha, hb]

theorem flagsContain_present_ne_zero (f : Nat) (h : flagsContain f PRESENT) :
    f ≠ 0 := by
  intro h0
  rw [h0] at h
  exact absurd h (by decide)

theorem entry_not_unused_of_present (e : Entry) (h : flagsContain e.flags PRESENT) :
    ¬ e.isUnused := by
  intro hu
  have : e.flags = 0 := by rw [hu]; rfl
  exact flagsContain_present_ne_zero e.flags h this

theorem Entry.frame_of_present_nonhuge (e : Entry)
    (h1 : flagsContain e.flags PRESENT) (h2 : ¬ flagsContain e.flags HUGE_PAGE) :
    e.frame = .ok (containing4K e.addr) := by
  unfold Entry.frame
  rw [if_neg (not_not_intro h1), if_neg h2]

theorem Entry.frame_of_not_present (e : Entry)
    (h1 : ¬ flagsContain e.flags PRESENT) :
    e.frame = .error .FrameNotPresent := by
  unfold Entry.frame
  rw [if_pos h1]

theorem Entry.frame_of_huge (e : Entry)
    (h1 : flagsContain e.flags PRESENT) (h2 : flagsContain e.flags HUGE_PAGE) :
    e.frame = .error .HugeFrame := by
  unfold Entry.frame
  rw [if_neg (not_not_intro h1), if_pos h2]

theorem Table.set_self (t : Table) (i : Nat) (e : Entry) : t.set i e i = e := by
  simp [Table.set]

theorem Table.set_ne (t : Table) (i j : Nat) (e : Entry) (h : j ≠ i) :
    t.set i e j = t j := by
  simp [Table.set, h]

/-- The present flag survives the widening union performed by
`create_next_table`. -/
theorem present_of_widened (f g : Nat) (h : flagsContain f PRESENT) :
    flagsContain (f ||| g) PRESENT :=
  flagsContain_or_left f g PRESENT h

theorem MapperState.setP2_p2 (st : MapperState) (i : Nat) (e : Entry) :
    (st.setP2 i e).p2 = st.p2.set i e := rfl

theorem MapperState.setP2_mem (st : MapperState) (i : Nat) (e : Entry) :
    (st.setP2 i e).mem = st.mem := rfl

theorem MapperState.setMem_mem_self (st : MapperState) (f : Nat) (t : Table) :
    (st.setMem f t).mem f = t := by
  simp [MapperState.setMem]

theorem MapperState.setMem_p2 (st : MapperState) (f : Nat) (t : Table) :
    (st.setMem f t).p2 = st.p2 := rfl

theorem containing4K_eq (a : Nat) (h : a % 4096 = 0) : containing4K a = a := by
  unfold containing4K
  omega

theorem containing4M_eq (a : Nat) (h : a % 2 ^ 22 = 0) : containing4M a = a := by
  unfold containing4M
  have : (2 : Nat) ^ 22 = 4194304 := by norm_num
  omega

theorem p2Index_eq_of_in_4M_page (v a : Nat) (hal : v % 2 ^ 22 = 0)
    (h1 : v ≤ a) (h2 : a < v + 2 ^ 22) : p2Index a = p2Index v := by
  unfold p2Index
  have e22 : (2 : Nat) ^ 22 = 4194304 := by norm_num
  rw [e22] at *
  omega

theorem indices_eq_of_in_4K_page (v a : Nat) (hal : v % 2 ^ 12 = 0)
    (h1 : v ≤ a) (h2 : a < v + 2 ^ 12) :
    p2Index a = p2Index v ∧ p1Index a = p1Index v := by
  unfold p2Index p1Index
  have e22 : (2 : Nat) ^ 22 = 4194304 := by norm_num
  have e12 : (2 : Nat) ^ 12 = 4096 := by norm_num
  rw [e22, e12] at *
  omega

/-- Evaluation of `translate` through a huge level-2 entry. -/
theorem translate_huge (st : MapperState) (a : Nat)
    (hP : flagsContain (st.p2 (p2Index a)).flags PRESENT)
    (hH : flagsContain (st.p2 (p2Index a)).flags HUGE_PAGE) :
    translate st a = .Mapped .Size4MiB (containing4M (st.p2 (p2Index a)).addr)
      (a &&& 0o7777777) (st.p2 (p2Index a)).flags := by
  unfold translate
  rw [Entry.frame_of_huge _ hP hH]

/-- Evaluation of `translate` when the level-2 entry is not present. -/
theorem translate_not_present (st : MapperState) (a : Nat)
    (hP : ¬ flagsContain (st.p2 (p2Index a)).flags PRESENT) :
    translate st a = .NotMapped := by
  unfold translate
  rw [Entry.frame_of_not_present _ hP]

/-- Evaluation of `translate` down to a used, aligned level-1 entry. -/
theorem translate_4k (st : MapperState) (a : Nat)
    (hP : flagsContain (st.p2 (p2Index a)).flags PRESENT)
    (hH : ¬ flagsContain (st.p2 (p2Index a)).flags HUGE_PAGE)
    (hu : ¬ (st.mem (containing4K (st.p2 (p2Index a)).addr) (p1Index a)).isUnused)
    (hal : (st.mem (containing4K (st.p2 (p2Index a)).addr) (p1Index a)).addr % 4096 = 0) :
    translate st a = .Mapped .Size4KiB
      (st.mem (containing4K (st.p2 (p2Index a)).addr) (p1Index a)).addr
      (pageOffset a)
      (st.mem (containing4K (st.p2 (p2Index a)).addr) (p1Index a)).flags := by
  unfold translate
  rw [Entry.frame_of_present_nonhuge _ hP hH]
  simp only [if_neg hu, if_neg (not_not_intro hal)]

/-- Evaluation of `translate` down to an unused level-1 entry. -/
theorem translate_4k_unused (st : MapperState) (a : Nat)
    (hP : flagsContain (st.p2 (p2Index a)).flags PRESENT)
    (hH : ¬ flagsContain (st.p2 (p2Index a)).flags HUGE_PAGE)
    (hu : (st.mem (containing4K (st.p2 (p2Index a)).addr) (p1Index a)).isUnused) :
    translate st a = .NotMapped := by
  unfold translate
  rw [Entry.frame_of_present_nonhuge _ hP hH]
  simp only [if_pos hu]

theorem not_flagsContain_huge_or (a b : Nat)
    (ha : ¬ flagsContain a HUGE_PAGE) (hb : ¬ flagsContain b HUGE_PAGE) :
    ¬ flagsContain (a ||| b) HUGE_PAGE := by
  have h : HUGE_PAGE = 2 ^ 7 := by norm_num [HUGE_PAGE]
  rw [h] at ha hb ⊢
  exact not_flagsContain_pow_or a b 7 ha hb

/-- `create_next_table` on an unused entry with a usable allocator:
installs the allocated frame with the insert flags, zeroes the fresh
table and returns its frame address. -/
theorem createNextTable_fresh (st : MapperState) (p2i pflags f : Nat)
    (rest : List Nat)
    (hu : (st.p2 p2i).isUnused) (ha : st.alloc = f :: rest)
    (hP : flagsContain pflags PRESENT) (hH : ¬ flagsContain pflags HUGE_PAGE) :
    createNextTable st p2i pflags =
      ((.ok, some (containing4K f)),
       ({ st.setP2 p2i (Entry.setAddr f pflags) with alloc := rest }).setMem
         (containing4K f) Table.zero) := by
  have hframe : (Entry.setAddr f pflags).frame = .ok (containing4K f) :=
    Entry.frame_of_present_nonhuge (Entry.setAddr f pflags) hP hH
  unfold createNextTable
  rw [if_pos hu, ha]
  simp only [hframe]

/-- `create_next_table` on a used, present, non-huge entry with non-huge
insert flags: the walk succeeds, returning the table at the entry's
address; the entry's flags may have been widened by union but keep the
present bit and stay non-huge. -/
theorem createNextTable_used_walk (st : MapperState) (p2i pflags : Nat)
    (hP : flagsContain (st.p2 p2i).flags PRESENT)
    (hH : ¬ flagsContain (st.p2 p2i).flags HUGE_PAGE)
    (hHp : ¬ flagsContain pflags HUGE_PAGE) :
    ∃ fl, createNextTable st p2i pflags =
        ((.ok, some (containing4K (st.p2 p2i).addr)),
          st.setP2 p2i ⟨(st.p2 p2i).addr, fl⟩) ∧
      flagsContain fl PRESENT ∧ ¬ flagsContain fl HUGE_PAGE ∧
      (fl = (st.p2 p2i).flags ∨ fl = (st.p2 p2i).flags ||| pflags) := by
  have hne : ¬ (st.p2 p2i).isUnused := entry_not_unused_of_present _ hP
  unfold createNextTable
  rw [if_neg hne]
  by_cases hw : pflags ≠ 0 ∧ ¬ flagsContain (st.p2 p2i).flags pflags
  · refine ⟨(st.p2 p2i).flags ||| pflags, ?_, present_of_widened _ _ hP,
      not_flagsContain_huge_or _ _ hH hHp, Or.inr rfl⟩
    have hframe : ((st.p2 p2i).setFlags ((st.p2 p2i).flags ||| pflags)).frame =
        .ok (containing4K (st.p2 p2i).addr) :=
      Entry.frame_of_present_nonhuge _ (present_of_widened _ _ hP)
        (not_flagsContain_huge_or _ _ hH hHp)
    rw [if_pos hw]
    simp only [hframe]
    rfl
  · refine ⟨(st.p2 p2i).flags, ?_, hP, hH, Or.inl rfl⟩
    have hframe : (st.p2 p2i).frame = .ok (containing4K (st.p2 p2i).addr) :=
      Entry.frame_of_present_nonhuge _ hP hH
    rw [if_neg hw]
    simp only [hframe]

def emptyMapper : MapperState := ⟨Table.zero, fun _ => Table.zero, []⟩

/-- C1 counterexample: on the empty hierarchy the level-2 entry of page 0
is unused and `map_to_4mib(page 0, frame 0, WRITABLE)` succeeds, yet the
subsequent `translate(0)` reports `NotMapped`, not a mapping with the
requested flags plus the huge-page bit: the walk requires the PRESENT bit,
which the caller did not request. -/
theorem map4M_without_present_translate_not_mapped :
    (emptyMapper.p2 (p2Index 0)).isUnused ∧
    (map4M emptyMapper (p2Index 0) 0 WRITABLE).1 = .ok ∧
    translate (map4M emptyMapper (p2Index 0) 0 WRITABLE).2 0 = .NotMapped := by
  decide

/-- C1 (amended): for both supported page sizes, mapping a page whose
terminal entry is unused succeeds, and translate of any address inside the
page then reports the mapping with the stored flags (huge-page bit forced
in for 4 MiB, nothing added for 4 KiB) — provided the requested flags
include PRESENT (otherwise the walk stops at the installed entry), and,
for the 4 KiB size, the parent-table flags include PRESENT and are not
huge and the level-2 entry either is unused with a frame available from
the allocator or already walks to a level-1 table. -/
theorem map_then_translate_reports_mapping :
    (∀ (st : MapperState) (v F flags : Nat),
      v % 2 ^ 22 = 0 → F % 2 ^ 22 = 0 →
      (st.p2 (p2Index v)).isUnused → flagsContain flags PRESENT →
      (map4M st (p2Index v) F flags).1 = .ok ∧
      (∀ a, v ≤ a → a < v + 2 ^ 22 →
        translate (map4M st (p2Index v) F flags).2 a =
          .Mapped .Size4MiB F (a &&& 0o7777777) (flags ||| HUGE_PAGE))) ∧
    (∀ (st : MapperState) (v F flags pflags f : Nat) (rest : List Nat),
      v % 2 ^ 12 = 0 → F % 2 ^ 12 = 0 → f % 2 ^ 12 = 0 →
      st.alloc = f :: rest →
      (st.p2 (p2Index v)).isUnused →
      flagsContain pflags PRESENT → ¬ flagsContain pflags HUGE_PAGE →
      flagsContain flags PRESENT →
      (map4K st (p2Index v) (p1Index v) F flags pflags).1 = .ok ∧
      (∀ a, v ≤ a → a < v + 2 ^ 12 →
        translate (map4K st (p2Index v) (p1Index v) F flags pflags).2 a =
          .Mapped .Size4KiB F (pageOffset a) flags)) ∧
    (∀ (st : MapperState) (v F flags pflags : Nat),
      v % 2 ^ 12 = 0 → F % 2 ^ 12 = 0 →
      flagsContain (st.p2 (p2Index v)).flags PRESENT →
      ¬ flagsContain (st.p2 (p2Index v)).flags HUGE_PAGE →
      ¬ flagsContain pflags HUGE_PAGE →
      (st.mem (containing4K (st.p2 (p2Index v)).addr) (p1Index v)).isUnused →
      flagsContain flags PRESENT →
      (map4K st (p2Index v) (p1Index v) F flags pflags).1 = .ok ∧
      (∀ a, v ≤ a → a < v + 2 ^ 12 →
        translate (map4K st (p2Index v) (p1Index v) F flags pflags).2 a =
          .Mapped .Size4KiB F (pageOffset a) flags)) := by
  refine ⟨?_, ?_, ?_⟩
  · intro st v F flags hv hF hu hfl
    have hmap : map4M st (p2Index v) F flags =
        (.ok, st.setP2 (p2Index v) (Entry.setAddr F (flags ||| HUGE_PAGE))) := by
      unfold map4M
      rw [if_neg (not_not_intro hu)]
    refine ⟨by rw [hmap], ?_⟩
    intro a ha1 ha2
    have hidx : p2Index a = p2Index v := p2Index_eq_of_in_4M_page v a hv ha1 ha2
    rw [hmap]
    have hset : (st.setP2 (p2Index v) (Entry.setAddr F (flags ||| HUGE_PAGE))).p2 (p2Index a) =
        Entry.setAddr F (flags ||| HUGE_PAGE) := by
      rw [MapperState.setP2_p2, hidx, Table.set_self]
    rw [translate_huge _ a (by rw [hset]; exact present_of_widened _ _ hfl)
      (by rw [hset]; exact flagsContain_or_self_right _ _)]
    rw [hset]
    rw [show (Entry.setAddr F (flags ||| HUGE_PAGE)).addr = F from rfl,
      show (Entry.setAddr F (flags ||| HUGE_PAGE)).flags = flags ||| HUGE_PAGE from rfl,
      containing4M_eq F hF]
  · intro st v F flags pflags f rest hv hF hf ha hu hpP hpH hfl
    have e12 : (2 : Nat) ^ 12 = 4096 := by norm_num
    have hf4 : containing4K f = f := containing4K_eq f (by omega)
    have hF4 : F % 4096 = 0 := by omega
    have hcreate := createNextTable_fresh st (p2Index v) pflags f rest hu ha hpP hpH
    rw [hf4] at hcreate
    set st1 : MapperState :=
      ({ st.setP2 (p2Index v) (Entry.setAddr f pflags) with alloc := rest }).setMem
        f Table.zero with hst1
    have hmem1 : st1.mem f = Table.zero := MapperState.setMem_mem_self _ _ _
    have hterm : (st1.mem f (p1Index v)).isUnused := by
      rw [hmem1]
      exact rfl
    have hmap : map4K st (p2Index v) (p1Index v) F flags pflags =
        (.ok, st1.setMem f
          ((st1.mem f).set (p1Index v) (Entry.setAddr F flags))) := by
      simp only [map4K, hcreate, if_neg (not_not_intro hterm)]
    refine ⟨by rw [hmap], ?_⟩
    intro a ha1 ha2
    obtain ⟨hidx2, hidx1⟩ := indices_eq_of_in_4K_page v a hv ha1 ha2
    rw [hmap]
    set T2 : Table := (st1.mem f).set (p1Index v) (Entry.setAddr F flags) with hT2
    set st2 : MapperState := st1.setMem f T2 with hst2
    have hp2 : st2.p2 = st.p2.set (p2Index v) (Entry.setAddr f pflags) := rfl
    have hp2a : st2.p2 (p2Index a) = Entry.setAddr f pflags := by
      rw [hp2, hidx2, Table.set_self]
    have hmem2 : st2.mem f = T2 := MapperState.setMem_mem_self _ _ _
    have haddr : containing4K (st2.p2 (p2Index a)).addr = f := by
      rw [hp2a]
      exact hf4
    have hterm2 : st2.mem (containing4K (st2.p2 (p2Index a)).addr) (p1Index a) =
        Entry.setAddr F flags := by
      rw [haddr, hmem2, hT2, hidx1, Table.set_self]
    rw [translate_4k st2 a (by rw [hp2a]; exact hpP) (by rw [hp2a]; exact hpH)
      (by rw [hterm2]; exact entry_not_unused_of_present _ hfl)
      (by rw [hterm2]; exact hF4)]
    rw [hterm2]
    rfl
  · intro st v F flags pflags hv hF hP hH hpH hterm hfl
    have e12 : (2 : Nat) ^ 12 = 4096 := by norm_num
    have hF4 : F % 4096 = 0 := by omega
    obtain ⟨fl, hcreate, hflP, hflH, _⟩ :=
      createNextTable_used_walk st (p2Index v) pflags hP hH hpH
    set st1 : MapperState := st.setP2 (p2Index v) ⟨(st.p2 (p2Index v)).addr, fl⟩ with hst1
    have hmem1 : st1.mem = st.mem := MapperState.setP2_mem _ _ _
    have hterm1 : (st1.mem (containing4K (st.p2 (p2Index v)).addr) (p1Index v)).isUnused := by
      rw [hmem1]
      exact hterm
    have hmap : map4K st (p2Index v) (p1Index v) F flags pflags =
        (.ok, st1.setMem (containing4K (st.p2 (p2Index v)).addr)
          ((st1.mem (containing4K (st.p2 (p2Index v)).addr)).set (p1Index v)
            (Entry.setAddr F flags))) := by
      simp only [map4K, hcreate, if_neg (not_not_intro hterm1)]
    refine ⟨by rw [hmap], ?_⟩
    intro a ha1 ha2
    obtain ⟨hidx2, hidx1⟩ := indices_eq_of_in_4K_page v a hv ha1 ha2
    rw [hmap]
    set T2 : Table := (st1.mem (containing4K (st.p2 (p2Index v)).addr)).set (p1Index v)
      (Entry.setAddr F flags) with hT2
    set st2 : MapperState := st1.setMem (containing4K (st.p2 (p2Index v)).addr) T2 with hst2
    have hp2 : st2.p2 = st.p2.set (p2Index v) ⟨(st.p2 (p2Index v)).addr, fl⟩ := rfl
    have hp2a : st2.p2 (p2Index a) = ⟨(st.p2 (p2Index v)).addr, fl⟩ := by
      rw [hp2, hidx2, Table.set_self]
    have hmem2 : st2.mem (containing4K (st.p2 (p2Index v)).addr) = T2 :=
      MapperState.setMem_mem_self _ _ _
    have haddr : containing4K (st2.p2 (p2Index a)).addr =
        containing4K (st.p2 (p2Index v)).addr := by
      rw [hp2a]
    have hterm2 : st2.mem (containing4K (st2.p2 (p2Index a)).addr) (p1Index a) =
        Entry.setAddr F flags := by
      rw [haddr, hmem2, hT2, hidx1, Table.set_self]
    rw [translate_4k st2 a (by rw [hp2a]; exact hflP) (by rw [hp2a]; exact hflH)
      (by rw [hterm2]; exact entry_not_unused_of_present _ hfl)
      (by rw [hterm2]; exact hF4)]
    rw [hterm2]
    rfl

/-- C1 witness: the 4 MiB half of the theorem applied on the empty
hierarchy to page 0, frame `0x400000`, flags `PRESENT | WRITABLE`, and the
address `0x400 + 0` inside the page... evaluated at address 7. -/
theorem map_then_translate_reports_mapping_witness :
    (map4M emptyMapper (p2Index 0) 0x400000 (PRESENT ||| WRITABLE)).1 = .ok ∧
    translate (map4M emptyMapper (p2Index 0) 0x400000 (PRESENT ||| WRITABLE)).2 7 =
      .Mapped .Size4MiB 0x400000 (7 &&& 0o7777777)
        ((PRESENT ||| WRITABLE) ||| HUGE_PAGE) := by
  obtain ⟨h1, h2⟩ := map_then_translate_reports_mapping.1 emptyMapper 0 0x400000
    (PRESENT ||| WRITABLE) (by norm_num) (by norm_num) (by decide) (by decide)
  exact ⟨h1, h2 7 (by norm_num) (by norm_num)⟩

/-- A mapper state whose level-2 entry 0 walks to a level-1 table at
frame `0x5000` whose entry 3 is already in use. -/
def mapperWith4K : MapperState :=
  ⟨Table.zero.set 0 ⟨0x5000, PRESENT⟩,
   fun g => if g = 0x5000 then Table.zero.set 3 ⟨0x9000, PRESENT⟩ else Table.zero,
   []⟩

/-- C3: mapping over an already-used terminal entry fails with
`PageAlreadyMapped`; the 4 MiB operation leaves the whole state unchanged,
and the 4 KiB operation leaves every level-1 table (in particular the
existing terminal entry's frame address and flags) unchanged. -/
theorem map_already_mapped_preserves_entry :
    (∀ (st : MapperState) (p2i F flags : Nat),
      ¬ (st.p2 p2i).isUnused →
      map4M st p2i F flags = (.err .PageAlreadyMapped, st)) ∧
    (∀ (st : MapperState) (p2i p1i F flags pflags : Nat),
      flagsContain (st.p2 p2i).flags PRESENT →
      ¬ flagsContain (st.p2 p2i).flags HUGE_PAGE →
      ¬ flagsContain pflags HUGE_PAGE →
      ¬ (st.mem (containing4K (st.p2 p2i).addr) p1i).isUnused →
      (map4K st p2i p1i F flags pflags).1 = .err .PageAlreadyMapped ∧
      (map4K st p2i p1i F flags pflags).2.mem = st.mem) := by
  refine ⟨?_, ?_⟩
  · intro st p2i F flags h
    unfold map4M
    rw [if_pos h]
  · intro st p2i p1i F flags pflags hP hH hpH hterm
    obtain ⟨fl, hcreate, _, _, _⟩ := createNextTable_used_walk st p2i pflags hP hH hpH
    have hterm1 : ¬ ((st.setP2 p2i ⟨(st.p2 p2i).addr, fl⟩).mem
        (containing4K (st.p2 p2i).addr) p1i).isUnused := hterm
    have hmap : map4K st p2i p1i F flags pflags =
        (.err .PageAlreadyMapped, st.setP2 p2i ⟨(st.p2 p2i).addr, fl⟩) := by
      simp only [map4K, hcreate, if_pos hterm1]
    rw [hmap]
    exact ⟨rfl, rfl⟩

/-- C3 witness: the 4 KiB half applied to a concrete state whose terminal
entry 3 of the level-1 table at `0x5000` is already used. -/
theorem map_already_mapped_preserves_entry_witness :
    (map4K mapperWith4K 0 3 0x7000 PRESENT (PRESENT ||| WRITABLE)).1 =
      .err .PageAlreadyMapped ∧
    (map4K mapperWith4K 0 3 0x7000 PRESENT (PRESENT ||| WRITABLE)).2.mem =
      mapperWith4K.mem :=
  map_already_mapped_preserves_entry.2 mapperWith4K 0 3 0x7000 PRESENT
    (PRESENT ||| WRITABLE) (by decide) (by decide) (by decide) (by decide)

/-- A mapper state whose level-2 entry 0 is a present huge-page entry with
a stored address that is 4 KiB- but not 4 MiB-aligned. -/
def hugeMisaligned : MapperState :=
  ⟨Table.zero.set 0 ⟨0x1000, PRESENT ||| HUGE_PAGE⟩, fun _ => Table.zero, []⟩

/-- C4 counterexample: the 4 MiB unmap has a fourth outcome beyond the
three the claim allows: on a present huge entry whose stored address is
not 4 MiB aligned it returns `InvalidFrameAddress`, which is neither
`PageNotMapped`, `ParentEntryHugePage` nor success. -/
theorem unmap4M_fourth_outcome :
    (unmap4M hugeMisaligned 0).1 = .err (.InvalidFrameAddress 0x1000) ∧
    (unmap4M hugeMisaligned 0).1 ≠ .err .PageNotMapped ∧
    (unmap4M hugeMisaligned 0).1 ≠ .err .ParentEntryHugePage := by
  decide

/-- C4 (amended): on entries whose stored address satisfies the alignment
invariant, `unmap` distinguishes exactly the three claimed outcomes for
both page sizes: a not-present entry gives `PageNotMapped` and mutates
nothing; a size mismatch (4 KiB unmap landing on a huge entry, 4 MiB
unmap landing on a present non-huge entry) gives `ParentEntryHugePage`
and mutates nothing; success clears the entry to unused, returns the
freed frame, and a subsequent translate of the page reports `NotMapped`.
On a corrupt (misaligned) huge entry the 4 MiB unmap additionally returns
`InvalidFrameAddress`. -/
theorem unmap_three_outcomes :
    (∀ (st : MapperState) (p2i : Nat),
      (¬ flagsContain (st.p2 p2i).flags PRESENT →
        unmap4M st p2i = (.err .PageNotMapped, st)) ∧
      (flagsContain (st.p2 p2i).flags PRESENT →
       ¬ flagsContain (st.p2 p2i).flags HUGE_PAGE →
        unmap4M st p2i = (.err .ParentEntryHugePage, st)) ∧
      (flagsContain (st.p2 p2i).flags PRESENT →
       flagsContain (st.p2 p2i).flags HUGE_PAGE →
       (st.p2 p2i).addr % 2 ^ 22 = 0 →
        unmap4M st p2i = (.ok (st.p2 p2i).addr, st.setP2 p2i Entry.unused) ∧
        (∀ a, p2Index a = p2i →
          translate (unmap4M st p2i).2 a = .NotMapped))) ∧
    (∀ (st : MapperState) (p2i p1i : Nat),
      (¬ flagsContain (st.p2 p2i).flags PRESENT →
        unmap4K st p2i p1i = (.err .PageNotMapped, st)) ∧
      (flagsContain (st.p2 p2i).flags PRESENT →
       flagsContain (st.p2 p2i).flags HUGE_PAGE →
        unmap4K st p2i p1i = (.err .ParentEntryHugePage, st)) ∧
      (flagsContain (st.p2 p2i).flags PRESENT →
       ¬ flagsContain (st.p2 p2i).flags HUGE_PAGE →
        (¬ flagsContain (st.mem (containing4K (st.p2 p2i).addr) p1i).flags PRESENT →
          unmap4K st p2i p1i = (.err .PageNotMapped, st)) ∧
        (flagsContain (st.mem (containing4K (st.p2 p2i).addr) p1i).flags PRESENT →
         flagsContain (st.mem (containing4K (st.p2 p2i).addr) p1i).flags HUGE_PAGE →
          unmap4K st p2i p1i = (.err .ParentEntryHugePage, st)) ∧
        (flagsContain (st.mem (containing4K (st.p2 p2i).addr) p1i).flags PRESENT →
         ¬ flagsContain (st.mem (containing4K (st.p2 p2i).addr) p1i).flags HUGE_PAGE →
          unmap4K st p2i p1i =
            (.ok (containing4K (st.mem (containing4K (st.p2 p2i).addr) p1i).addr),
             st.setMem (containing4K (st.p2 p2i).addr)
               ((st.mem (containing4K (st.p2 p2i).addr)).set p1i Entry.unused)) ∧
          (∀ a, p2Index a = p2i → p1Index a = p1i →
            translate (unmap4K st p2i p1i).2 a = .NotMapped)))) := by
  constructor
  · intro st p2i
    refine ⟨?_, ?_, ?_⟩
    · intro h
      unfold unmap4M
      rw [if_pos h]
    · intro h1 h2
      unfold unmap4M
      rw [if_neg (not_not_intro h1), if_pos h2]
    · intro h1 h2 h3
      have hres : unmap4M st p2i = (.ok (st.p2 p2i).addr, st.setP2 p2i Entry.unused) := by
        unfold unmap4M
        rw [if_neg (not_not_intro h1), if_neg (not_not_intro h2),
          if_neg (not_not_intro h3)]
      refine ⟨hres, ?_⟩
      intro a hidx
      rw [hres]
      apply translate_not_present
      have : (st.setP2 p2i Entry.unused).p2 (p2Index a) = Entry.unused := by
        rw [MapperState.setP2_p2, hidx, Table.set_self]
      rw [this]
      decide
  · intro st p2i p1i
    refine ⟨?_, ?_, ?_⟩
    · intro h
      unfold unmap4K
      rw [Entry.frame_of_not_present _ h]
    · intro h1 h2
      unfold unmap4K
      rw [Entry.frame_of_huge _ h1 h2]
    · intro h1 h2
      refine ⟨?_, ?_, ?_⟩
      · intro h3
        unfold unmap4K
        simp only [Entry.frame_of_present_nonhuge _ h1 h2,
          Entry.frame_of_not_present _ h3]
      · intro h3 h4
        unfold unmap4K
        simp only [Entry.frame_of_present_nonhuge _ h1 h2,
          Entry.frame_of_huge _ h3 h4]
      · intro h3 h4
        have hres : unmap4K st p2i p1i =
            (.ok (containing4K (st.mem (containing4K (st.p2 p2i).addr) p1i).addr),
             st.setMem (containing4K (st.p2 p2i).addr)
               ((st.mem (containing4K (st.p2 p2i).addr)).set p1i Entry.unused)) := by
          unfold unmap4K
          simp only [Entry.frame_of_present_nonhuge _ h1 h2,
            Entry.frame_of_present_nonhuge _ h3 h4]
        refine ⟨hres, ?_⟩
        intro a hidx2 hidx1
        rw [hres]
        set st1 : MapperState := st.setMem (containing4K (st.p2 p2i).addr)
          ((st.mem (containing4K (st.p2 p2i).addr)).set p1i Entry.unused) with hst1
        have hp2a : st1.p2 (p2Index a) = st.p2 p2i := by
          rw [hst1, MapperState.setMem_p2, hidx2]
        apply translate_4k_unused
        · rw [hp2a]
          exact h1
        · rw [hp2a]
          exact h2
        · rw [hp2a, hst1, MapperState.setMem_mem_self, hidx1, Table.set_self]
          exact rfl

/-- C4 witness: the success case of the 4 MiB unmap on a state holding a
present, huge, 4 MiB-aligned mapping of page 0, followed by translate
reporting `NotMapped`. -/
theorem unmap_three_outcomes_witness :
    unmap4M (map4M emptyMapper 0 0x400000 PRESENT).2 0 =
      (.ok 0x400000, (map4M emptyMapper 0 0x400000 PRESENT).2.setP2 0 Entry.unused) ∧
    translate (unmap4M (map4M emptyMapper 0 0x400000 PRESENT).2 0).2 5 = .NotMapped := by
  obtain ⟨h1, h2⟩ := (unmap_three_outcomes.1 (map4M emptyMapper 0 0x400000 PRESENT).2 0).2.2
    (by decide) (by decide) (by decide)
  exact ⟨h1, h2 5 (by decide)⟩

/-- C8: the 4 KiB offset is the low 12 bits as claimed, but the huge-page
offset mask `0o_777_7777` of the source is `2^21 - 1` (the 2 MiB mask of
the upstream crate), not the 22 bits of a 4 MiB page: at address
`0x200000` inside the 4 MiB page mapped at frame 0 the code reports
offset 0 although the low 22 bits of the address are `0x200000`. -/
theorem translate_huge_offset_drops_bit21 :
    translate (map4M emptyMapper (p2Index 0) 0 PRESENT).2 0x200000 =
      .Mapped .Size4MiB 0 0 (PRESENT ||| HUGE_PAGE) ∧
    0x200000 % 2 ^ 22 = 0x200000 ∧
    (0 : Nat) ≠ 0x200000 ∧
    translate mapperWith4K (3 * 4096 + 7) = .Mapped .Size4KiB 0x9000 7 PRESENT := by
  decide

/-- On an unused level-2 entry, `map_to_4kib` can never fail with
`PageAlreadyMapped`: a freshly created level-1 table is zeroed, so its
terminal entry is unused. -/
theorem map4K_fresh_not_already (st : MapperState) (p2i p1i F flags pflags : Nat)
    (hu : (st.p2 p2i).isUnused) :
    (map4K st p2i p1i F flags pflags).1 ≠ .err .PageAlreadyMapped := by
  rcases halloc : st.alloc with _ | ⟨f, rest⟩
  · have hc : createNextTable st p2i pflags = ((.err .FrameAllocationFailed, none), st) := by
      unfold createNextTable
      rw [if_pos hu, halloc]
    have hmap : (map4K st p2i p1i F flags pflags).1 = .err .FrameAllocationFailed := by
      simp only [map4K, hc]
    rw [hmap]
    decide
  · by_cases hP : flagsContain pflags PRESENT
    · by_cases hH : flagsContain pflags HUGE_PAGE
      · have hc : createNextTable st p2i pflags =
            ((.err .ParentEntryHugePage, none),
             { st.setP2 p2i (Entry.setAddr f pflags) with alloc := rest }) := by
          unfold createNextTable
          rw [if_pos hu, halloc]
          simp only [Entry.frame_of_huge (Entry.setAddr f pflags) hP hH]
        have hmap : (map4K st p2i p1i F flags pflags).1 = .err .ParentEntryHugePage := by
          simp only [map4K, hc]
        rw [hmap]
        decide
      · have hcreate := createNextTable_fresh st p2i pflags f rest hu halloc hP hH
        set st1 : MapperState :=
          ({ st.setP2 p2i (Entry.setAddr f pflags) with alloc := rest }).setMem
            (containing4K f) Table.zero with hst1
        have hterm : (st1.mem (containing4K f) p1i).isUnused := by
          rw [MapperState.setMem_mem_self]
          exact rfl
        have hmap : (map4K st p2i p1i F flags pflags).1 = .ok := by
          simp only [map4K, hcreate, if_neg (not_not_intro hterm)]
        rw [hmap]
        decide
    · have hc : createNextTable st p2i pflags =
          ((.panicked, none),
           { st.setP2 p2i (Entry.setAddr f pflags) with alloc := rest }) := by
        unfold createNextTable
        rw [if_pos hu, halloc]
        simp only [Entry.frame_of_not_present (Entry.setAddr f pflags) hP]
      have hmap : (map4K st p2i p1i F flags pflags).1 = .panicked := by
        simp only [map4K, hc]
      rw [hmap]
      decide

/-- C10 counterexample: the claimed first effect cannot happen: there is
no state in which a 4 KiB map call both fails with `PageAlreadyMapped`
and has allocated a fresh level-1 table into an unused level-2 entry,
because a fresh table is zeroed and the map then proceeds past the
already-mapped check. -/
theorem no_fresh_table_on_already_mapped :
    ¬ ∃ (st : MapperState) (p2i p1i F flags pflags : Nat),
      (st.p2 p2i).isUnused ∧
      (map4K st p2i p1i F flags pflags).1 = .err .PageAlreadyMapped := by
  rintro ⟨st, p2i, p1i, F, flags, pflags, hu, hcontra⟩
  exact map4K_fresh_not_already st p2i p1i F flags pflags hu hcontra

/-- `create_next_table` on a used level-2 entry: the entry is first
possibly widened, then walked. -/
theorem createNextTable_used (st : MapperState) (p2i pflags : Nat) (E : Entry)
    (hne : ¬ (st.p2 p2i).isUnused)
    (hE : E = if pflags ≠ 0 ∧ ¬ flagsContain (st.p2 p2i).flags pflags
      then (st.p2 p2i).setFlags ((st.p2 p2i).flags ||| pflags) else st.p2 p2i) :
    createNextTable st p2i pflags =
      match E.frame with
      | .error .FrameNotPresent => ((.panicked, none), st.setP2 p2i E)
      | .error .HugeFrame => ((.err .ParentEntryHugePage, none), st.setP2 p2i E)
      | .ok p1f => ((.ok, some p1f), st.setP2 p2i E) := by
  subst hE
  unfold createNextTable
  rw [if_neg hne]

/-- A 4 KiB map call that fails with `PageAlreadyMapped` went through the
used branch of `create_next_table`: the resulting state is the original
with the level-2 entry possibly flag-widened. -/
theorem map4K_already_mapped_state (st : MapperState) (p2i p1i F flags pflags : Nat)
    (E : Entry)
    (hne : ¬ (st.p2 p2i).isUnused)
    (hE : E = if pflags ≠ 0 ∧ ¬ flagsContain (st.p2 p2i).flags pflags
      then (st.p2 p2i).setFlags ((st.p2 p2i).flags ||| pflags) else st.p2 p2i)
    (h : (map4K st p2i p1i F flags pflags).1 = .err .PageAlreadyMapped) :
    (map4K st p2i p1i F flags pflags).2 = st.setP2 p2i E := by
  have hc0 := createNextTable_used st p2i pflags E hne hE
  by_cases hP : flagsContain E.flags PRESENT
  · by_cases hH : flagsContain E.flags HUGE_PAGE
    · have hc1 : createNextTable st p2i pflags =
          ((.err .ParentEntryHugePage, none), st.setP2 p2i E) := by
        rw [hc0, Entry.frame_of_huge E hP hH]
      have hmap : (map4K st p2i p1i F flags pflags).1 = .err .ParentEntryHugePage := by
        simp only [map4K, hc1]
      rw [hmap] at h
      exact absurd h (by decide)
    · have hc1 : createNextTable st p2i pflags =
          ((.ok, some (containing4K E.addr)), st.setP2 p2i E) := by
        rw [hc0, Entry.frame_of_present_nonhuge E hP hH]
      by_cases hTerm : ((st.setP2 p2i E).mem (containing4K E.addr) p1i).isUnused
      · have hmap : (map4K st p2i p1i F flags pflags).1 = .ok := by
          simp only [map4K, hc1, if_neg (not_not_intro hTerm)]
        rw [hmap] at h
        exact absurd h (by decide)
      · have hmap : map4K st p2i p1i F flags pflags =
            (.err .PageAlreadyMapped, st.setP2 p2i E) := by
          simp only [map4K, hc1, if_pos hTerm]
        rw [hmap]
  · have hc1 : createNextTable st p2i pflags = ((.panicked, none), st.setP2 p2i E) := by
      rw [hc0, Entry.frame_of_not_present E hP]
    have hmap : (map4K st p2i p1i F flags pflags).1 = .panicked := by
      simp only [map4K, hc1]
    rw [hmap] at h
    exact absurd h (by decide)

/-- C10 (amended): a 4 KiB map call that fails with `PageAlreadyMapped`
may have widened the existing level-2 entry's flags by union with the
requested parent-table flags before the check (shown concretely in the
first conjuncts), and on any such failure the level-1 tables — in
particular the terminal entry — are unchanged and the only possible
mutation is that flag widening; a fresh level-1 table cannot have been
allocated on this failure path. -/
theorem map4K_already_mapped_effects :
    (map4K mapperWith4K 0 3 0x7000 PRESENT (PRESENT ||| WRITABLE)).1 =
      .err .PageAlreadyMapped ∧
    (mapperWith4K.p2 0).flags = PRESENT ∧
    ((map4K mapperWith4K 0 3 0x7000 PRESENT (PRESENT ||| WRITABLE)).2.p2 0).flags =
      PRESENT ||| WRITABLE ∧
    (∀ (st : MapperState) (p2i p1i F flags pflags : Nat),
      (map4K st p2i p1i F flags pflags).1 = .err .PageAlreadyMapped →
      (map4K st p2i p1i F flags pflags).2.mem = st.mem ∧
      ∃ fl, (map4K st p2i p1i F flags pflags).2.p2 =
          st.p2.set p2i ⟨(st.p2 p2i).addr, fl⟩ ∧
        (fl = (st.p2 p2i).flags ∨ fl = (st.p2 p2i).flags ||| pflags)) := by
  refine ⟨by decide, by decide, by decide, ?_⟩
  intro st p2i p1i F flags pflags h
  by_cases hu : (st.p2 p2i).isUnused
  · exact absurd h (map4K_fresh_not_already st p2i p1i F flags pflags hu)
  · by_cases hw : pflags ≠ 0 ∧ ¬ flagsContain (st.p2 p2i).flags pflags
    · have hstate := map4K_already_mapped_state st p2i p1i F flags pflags
        ((st.p2 p2i).setFlags ((st.p2 p2i).flags ||| pflags)) hu (by rw [if_pos hw]) h
      rw [hstate]
      exact ⟨rfl, (st.p2 p2i).flags ||| pflags, rfl, Or.inr rfl⟩
    · have hstate := map4K_already_mapped_state st p2i p1i F flags pflags
        (st.p2 p2i) hu (by rw [if_neg hw]) h
      rw [hstate]
      exact ⟨rfl, (st.p2 p2i).flags, rfl, Or.inl rfl⟩

/-- C10 witness: the universally quantified effect part of the theorem
applied to the concrete failing call of its first conjuncts. -/
theorem map4K_already_mapped_effects_witness :
    (map4K mapperWith4K 0 3 0x7000 PRESENT (PRESENT ||| WRITABLE)).2.mem =
      mapperWith4K.mem ∧
    ∃ fl, (map4K mapperWith4K 0 3 0x7000 PRESENT (PRESENT ||| WRITABLE)).2.p2 =
        mapperWith4K.p2.set 0 ⟨(mapperWith4K.p2 0).addr, fl⟩ ∧
      (fl = (mapperWith4K.p2 0).flags ∨
        fl = (mapperWith4K.p2 0).flags ||| (PRESENT ||| WRITABLE)) :=
  map4K_already_mapped_effects.2.2.2 mapperWith4K 0 3 0x7000 PRESENT
    (PRESENT ||| WRITABLE) (by decide)

/-- C5: on an address already mapped as a correct identity mapping at any
terminating size, `id_map` succeeds exactly when the existing entry's
flags contain the requested set (PRESENT plus the optional add flags);
otherwise it fails with `AlreadyMappedDiffFlags` carrying the actual
existing flags — never the requested ones — and performs no mapping
action. -/
theorem idMap_existing_checks_flag_superset :
    ∀ (size : KSize) (frameAddr flags myFrameAddr : Nat) (addFlags : Option Nat)
      (b : Bool),
      containingK size myFrameAddr = frameAddr →
      (flagsContain flags (PRESENT ||| addFlags.getD 0) →
        idMap (.Mapped size frameAddr flags) myFrameAddr addFlags b =
          (.ok (), .noChange)) ∧
      (¬ flagsContain flags (PRESENT ||| addFlags.getD 0) →
        idMap (.Mapped size frameAddr flags) myFrameAddr addFlags b =
          (.error (.AlreadyMappedDiffFlags flags), .noChange)) := by
  intro size frameAddr flags myFrameAddr addFlags b hid
  cases size with
  | Size4KiB =>
    refine ⟨?_, ?_⟩
    · intro hf
      simp only [idMap, if_neg (not_not_intro hid), if_neg (not_not_intro hf)]
    · intro hf
      simp only [idMap, if_neg (not_not_intro hid), if_pos hf]
  | Size2MiB =>
    refine ⟨?_, ?_⟩
    · intro hf
      simp only [idMap, if_neg (not_not_intro hf), if_neg (not_not_intro hid)]
    · intro hf
      simp only [idMap, if_pos hf]
  | Size1GiB =>
    refine ⟨?_, ?_⟩
    · intro hf
      simp only [idMap, if_neg (not_not_intro hf), if_neg (not_not_intro hid)]
    · intro hf
      simp only [idMap, if_pos hf]

/-- C5 witness: a 2 MiB identity mapping of frame `0x200000` whose
existing flags `PRESENT | NO_CACHE` contain the requested
`PRESENT | NO_CACHE`, and a failing call whose requested `WRITABLE` is
missing, reported with the actual flags. -/
theorem idMap_existing_checks_flag_superset_witness :
    idMap (.Mapped .Size2MiB 0x200000 (PRESENT ||| NO_CACHE)) 0x200000
      (some NO_CACHE) true = (.ok (), .noChange) ∧
    idMap (.Mapped .Size2MiB 0x200000 (PRESENT ||| NO_CACHE)) 0x200000
      (some WRITABLE) true =
      (.error (.AlreadyMappedDiffFlags (PRESENT ||| NO_CACHE)), .noChange) := by
  have h1 := (idMap_existing_checks_flag_superset .Size2MiB 0x200000
    (PRESENT ||| NO_CACHE) 0x200000 (some NO_CACHE) true (by decide)).1 (by decide)
  have h2 := (idMap_existing_checks_flag_superset .Size2MiB 0x200000
    (PRESENT ||| NO_CACHE) 0x200000 (some WRITABLE) true (by decide)).2 (by decide)
  exact ⟨h1, h2⟩

/-- C9 counterexample: a translate result of `InvalidFrameAddress` makes
`id_map` return `IdMapError::FrameAllocationFailed` — the very same error
value produced by an actual frame-allocation failure on the not-mapped
path — so the corruption case is not identified distinctly from
frame-allocation failure. -/
theorem idMap_invalid_frame_error_conflated :
    idMap (.InvalidFrameAddress 7) 0x3000 none true =
      (.error .FrameAllocationFailed, .noChange) ∧
    idMap .NotMapped 0x3000 none false =
      (.error .FrameAllocationFailed, .noChange) := by
  exact ⟨rfl, rfl⟩

/-- C9 (amended): on a misaligned-terminal-frame translate result,
`id_map` fails immediately without invoking any mapping operation and
returns a typed error to the caller — but that error is
`FrameAllocationFailed`, conflating the corruption case with resource
exhaustion rather than identifying it distinctly. -/
theorem idMap_invalid_frame_fails_immediately :
    ∀ (a myFrameAddr : Nat) (addFlags : Option Nat) (b : Bool),
      idMap (.InvalidFrameAddress a) myFrameAddr addFlags b =
        (.error .FrameAllocationFailed, .noChange) := by
  intro a myFrameAddr addFlags b
  rfl

/-!
## The frame allocator on the concrete boot memory map of the claim
-/

def demoMap : List MemoryRegion := [⟨0, 10 * 2 ^ 20, .Usable⟩]

theorem allocNth_allocate4K (st : AllocState) (n : Nat) :
    allocNth allocate4K st n = (usableFrames 4096 st.memoryMap).get? (st.next + n) := by
  induction n generalizing st with
  | zero => simp [allocNth, allocate4K]
  | succ n ih =>
    rw [allocNth, ih]
    simp only [allocate4K]
    congr 1
    omega

theorem allocNth_allocate2M (st : AllocState) (n : Nat) :
    allocNth allocate2M st n =
      (usableFrames (2 ^ 21) st.memoryMap).get? (st.next + 512 * n) := by
  induction n generalizing st with
  | zero => simp [allocNth, allocate2M]
  | succ n ih =>
    rw [allocNth, ih]
    simp only [allocate2M]
    congr 1
    omega

theorem usableFrames_demo_4K_eq :
    usableFrames 4096 demoMap =
      (stepRange 0 (10 * 2 ^ 20) 4096).map (fun a => a - a % 4096) := by
  simp [usableFrames, demoMap, MemoryRegion.size]

theorem stepRange_demo :
    stepRange 0 (10 * 2 ^ 20) 4096 = (List.range 2560).map (fun i => 0 + i * 4096) := by
  unfold stepRange
  norm_num

theorem usableFrames_demo_4K_get (n : Nat) :
    (usableFrames 4096 demoMap).get? n = if n < 2560 then some (n * 4096) else none := by
  rw [usableFrames_demo_4K_eq, stepRange_demo, List.get?_map, List.get?_map]
  by_cases h : n < 2560
  · rw [List.get?_range h, if_pos h]
    show some (0 + n * 4096 - (0 + n * 4096) % 4096) = some (n * 4096)
    congr 1
    omega
  · rw [List.get?_eq_none.mpr (by simpa using Nat.le_of_not_lt h), if_neg h]
    rfl

theorem usableFrames_demo_2M :
    usableFrames (2 ^ 21) demoMap =
      [0, 0x200000, 0x400000, 0x600000, 0x800000] := by
  decide

/-- C2 counterexample: on the memory map with the single usable region
`[0, 10 MiB)` the 2 MiB usable-frame sequence has exactly 5 elements, yet
the second 2 MiB `allocate_frame` call already returns exhaustion: the
first call advanced the shared cursor by 512, and the implementation
indexes the 5-element 2 MiB sequence with the raw cursor value. -/
theorem second_2M_allocation_exhausted :
    (usableFrames (2 ^ 21) demoMap).length = 5 ∧
    allocNth allocate2M ⟨demoMap, 0⟩ 0 = some 0 ∧
    allocNth allocate2M ⟨demoMap, 0⟩ 1 = none := by
  decide

/-- C2 (amended): each `allocate_frame` call returns the element of the
requested size's aligned frame-start sequence at the raw shared cursor,
advancing the cursor by 1 for a 4 KiB frame and by 512 for a 2 MiB frame.
For the map with one usable region `[0, 10 MiB)`: 4 KiB-only allocation
yields the 2560 distinct, 4 KiB-aligned, strictly increasing addresses
`n * 4096` and then exhaustion indefinitely; 2 MiB-only allocation yields
only the first of the 5 frames of the 2 MiB sequence and then exhaustion,
because the second call indexes position 512 of a 5-element sequence. -/
theorem allocator_sequences :
    (∀ n, n < 2560 → allocNth allocate4K ⟨demoMap, 0⟩ n = some (n * 4096)) ∧
    (∀ n, 2560 ≤ n → allocNth allocate4K ⟨demoMap, 0⟩ n = none) ∧
    (∀ m n a b, m < n →
      allocNth allocate4K ⟨demoMap, 0⟩ m = some a →
      allocNth allocate4K ⟨demoMap, 0⟩ n = some b →
      a < b ∧ a % 4096 = 0) ∧
    allocNth allocate2M ⟨demoMap, 0⟩ 0 = some 0 ∧
    (∀ n, 1 ≤ n → allocNth allocate2M ⟨demoMap, 0⟩ n = none) ∧
    (∀ st : AllocState,
      (allocate4K st).2.next = st.next + 1 ∧
      (allocate2M st).2.next = st.next + 512 ∧
      (allocate4K st).1 = (usableFrames 4096 st.memoryMap).get? st.next ∧
      (allocate2M st).1 = (usableFrames (2 ^ 21) st.memoryMap).get? st.next) := by
  have h4 : ∀ n : Nat, allocNth allocate4K ⟨demoMap, 0⟩ n =
      if n < 2560 then some (n * 4096) else none := by
    intro n
    rw [allocNth_allocate4K]
    show (usableFrames 4096 demoMap).get? (0 + n) = _
    rw [Nat.zero_add, usableFrames_demo_4K_get]
  have h2 : ∀ n : Nat, allocNth allocate2M ⟨demoMap, 0⟩ n =
      (usableFrames (2 ^ 21) demoMap).get? (512 * n) := by
    intro n
    rw [allocNth_allocate2M]
    simp
  refine ⟨?_, ?_, ?_, ?_, ?_, ?_⟩
  · intro n hn
    rw [h4 n, if_pos hn]
  · intro n hn
    rw [h4 n, if_neg (Nat.not_lt_of_le hn)]
  · intro m n a b hmn ha hb
    rw [h4 m] at ha
    rw [h4 n] at hb
    by_cases hm : m < 2560
    · rw [if_pos hm] at ha
      by_cases hn : n < 2560
      · rw [if_pos hn] at hb
        have ha2 := Option.some.inj ha
        have hb2 := Option.some.inj hb
        constructor
        · omega
        · omega
      · rw [if_neg hn] at hb
        exact absurd hb (by simp)
    · rw [if_neg hm] at ha
      exact absurd ha (by simp)
  · rw [h2 0]
    rw [usableFrames_demo_2M]
    rfl
  · intro n hn
    rw [h2 n, usableFrames_demo_2M]
    apply List.get?_eq_none.mpr
    show 5 ≤ 512 * n
    omega
  · intro st
    exact ⟨rfl, rfl, rfl, rfl⟩

/-- C2 witness: the fourth 4 KiB allocation call returns the fourth
element of the 4 KiB sequence, `3 * 4096`. -/
theorem allocator_sequences_witness :
    allocNth allocate4K ⟨demoMap, 0⟩ 3 = some (3 * 4096) :=
  allocator_sequences.1 3 (by norm_num)

/-- The 2 MiB block start addressed by the bootstrap builder's table and
entry indices for an address. -/
theorem block_start_eq (a : Nat) :
    a / ONE_GIG * ONE_GIG + a % ONE_GIG / TWO_MEG * TWO_MEG = a - a % TWO_MEG := by
  have h1 : ONE_GIG = 1073741824 := by norm_num [ONE_GIG]
  have h2 : TWO_MEG = 2097152 := by norm_num [TWO_MEG]
  rw [h1, h2]
  omega

/-- C6 counterexample: with a memory map holding the single usable region
`[0x100000, 0x200000)`, the address `0x100000` lies in a usable region,
yet its covering bootstrap entry is unused (not present, not writable):
the builder classifies by the 2 MiB block start `0x0`, finds no region
there and leaves the entry unmapped. -/
theorem usable_address_left_unmapped :
    getRegionByAddr [⟨0x100000, 0x200000, .Usable⟩] 0x100000 =
      some ⟨0x100000, 0x200000, .Usable⟩ ∧
    bootstrapEntryFor [⟨0x100000, 0x200000, .Usable⟩] 0x100000 = Entry.unused ∧
    ¬ flagsContain
      (bootstrapEntryFor [⟨0x100000, 0x200000, .Usable⟩] 0x100000).flags PRESENT := by
  refine ⟨by decide, by decide, by decide⟩

/-- C6 (amended): after the bootstrap builder's first phase, each address
in `[0, 4 GiB)` is covered according to the region containing its 2 MiB
block start: block start in a usable region gives a present, writable
huge-page identity entry; block start in any other region gives a
present, huge-page, no-execute, non-writable entry; block start in no
region leaves the entry unmapped. -/
theorem bootstrap_flags_by_block_start :
    ∀ (mmap : List MemoryRegion) (a : Nat), a < 2 ^ 32 →
      (∀ r, getRegionByAddr mmap (a - a % TWO_MEG) = some r → r.typ = .Usable →
        bootstrapEntryFor mmap a =
          Entry.setAddr (a - a % TWO_MEG) (PRESENT ||| WRITABLE ||| HUGE_PAGE)) ∧
      (∀ r, getRegionByAddr mmap (a - a % TWO_MEG) = some r → r.typ ≠ .Usable →
        bootstrapEntryFor mmap a =
          Entry.setAddr (a - a % TWO_MEG) (PRESENT ||| HUGE_PAGE ||| NO_EXECUTE) ∧
        ¬ flagsContain (PRESENT ||| HUGE_PAGE ||| NO_EXECUTE) WRITABLE) ∧
      (getRegionByAddr mmap (a - a % TWO_MEG) = none →
        bootstrapEntryFor mmap a = Entry.unused) := by
  intro mmap a ha
  refine ⟨?_, ?_, ?_⟩
  · rintro ⟨rs, re, rt⟩ hr ht
    cases rt with
    | Usable =>
      unfold bootstrapEntryFor bootstrapP2Entry
      rw [block_start_eq, hr]
    | Reserved => simp at ht
    | Empty => simp at ht
  · rintro ⟨rs, re, rt⟩ hr hne
    cases rt with
    | Usable => exact absurd rfl hne
    | Reserved =>
      refine ⟨?_, by decide⟩
      unfold bootstrapEntryFor bootstrapP2Entry
      rw [block_start_eq, hr]
    | Empty =>
      refine ⟨?_, by decide⟩
      unfold bootstrapEntryFor bootstrapP2Entry
      rw [block_start_eq, hr]
  · intro hr
    unfold bootstrapEntryFor bootstrapP2Entry
    rw [block_start_eq, hr]

/-- C6 witness: with the single usable region `[0, 0x200000)`, the entry
covering address `0x100` is the writable huge-page identity mapping of
block 0. -/
theorem bootstrap_flags_by_block_start_witness :
    bootstrapEntryFor [⟨0, 0x200000, .Usable⟩] 0x100 =
      Entry.setAddr (0x100 - 0x100 % TWO_MEG) (PRESENT ||| WRITABLE ||| HUGE_PAGE) :=
  (bootstrap_flags_by_block_start [⟨0, 0x200000, .Usable⟩] 0x100 (by norm_num)).1
    ⟨0, 0x200000, .Usable⟩ (by decide) (by decide)

/-- C7 counterexample: with stack guard `0x6000` and trampoline range
`[0x8000, 0xa000)`, the remapped level-1 entry for virtual address 0x0 is
left unused (the loop skips index 0 of the zeroed table), so address 0x0
is not mapped with the no-cache and no-execute flags the claim states. -/
theorem remap_entry_zero_unused :
    remapP1Entry 0x6000 0x8000 0xa000 0 = Entry.unused ∧
    ¬ flagsContain (remapP1Entry 0x6000 0x8000 0xa000 0).flags NO_CACHE ∧
    ¬ flagsContain (remapP1Entry 0x6000 0x8000 0xa000 0).flags PRESENT := by
  refine ⟨by decide, by decide, by decide⟩

/-- C7 (amended): after the 2 MiB remap at 4 KiB granularity the page at
virtual address 0x0 is left unmapped (entry 0 of the zeroed table is
skipped); the entry at index 184 (address `0xb8000`) is present, writable,
no-cache, no-execute; any other page equal to the stack guard is
present-only; other pages inside the SMP trampoline range are
present+writable; the remaining pages are present+no-cache+no-execute at
or below the 1 MiB boundary and plain present above it. -/
theorem remap_first_2mb_flags :
    ∀ (sg ts te i : Nat),
      remapP1Entry sg ts te 184 =
        Entry.setAddr 0xb8000 (PRESENT ||| WRITABLE ||| NO_CACHE ||| NO_EXECUTE) ∧
      remapP1Entry sg ts te 0 = Entry.unused ∧
      (1 ≤ i → i ≠ 184 →
        (i * 4096 = sg → remapP1Entry sg ts te i = Entry.setAddr sg PRESENT) ∧
        (i * 4096 ≠ sg → ts ≤ i * 4096 → i * 4096 < te →
          remapP1Entry sg ts te i = Entry.setAddr (i * 4096) (PRESENT ||| WRITABLE)) ∧
        (i * 4096 ≠ sg → ¬ (ts ≤ i * 4096 ∧ i * 4096 < te) → i * 4096 ≤ ONE_MEG →
          remapP1Entry sg ts te i =
            Entry.setAddr (i * 4096) (PRESENT ||| NO_CACHE ||| NO_EXECUTE)) ∧
        (i * 4096 ≠ sg → ¬ (ts ≤ i * 4096 ∧ i * 4096 < te) → ONE_MEG < i * 4096 →
          remapP1Entry sg ts te i = Entry.setAddr (i * 4096) PRESENT)) := by
  intro sg ts te i
  have hvga : (0xb8000 >>> 12 &&& 0o777 : Nat) = 184 := by decide
  refine ⟨?_, ?_, ?_⟩
  · unfold remapP1Entry
    rw [hvga, if_pos rfl]
  · unfold remapP1Entry
    rw [hvga, if_neg (by decide : (0 : Nat) ≠ 184), if_pos rfl]
  · intro h1 h184
    have hne0 : i ≠ 0 := by omega
    refine ⟨?_, ?_, ?_, ?_⟩
    · intro hsg
      unfold remapP1Entry
      rw [hvga, if_neg h184, if_neg hne0, if_pos hsg, hsg]
    · intro hsg hts hte
      unfold remapP1Entry
      rw [hvga, if_neg h184, if_neg hne0, if_neg hsg, if_pos ⟨hts, hte⟩]
    · intro hsg htr hle
      unfold remapP1Entry
      rw [hvga, if_neg h184, if_neg hne0, if_neg hsg, if_neg htr, if_pos hle]
    · intro hsg htr hgt
      unfold remapP1Entry
      rw [hvga, if_neg h184, if_neg hne0, if_neg hsg, if_neg htr,
        if_neg (Nat.not_le_of_lt hgt)]

/-- C7 witness: with stack guard `0x6000` and trampoline `[0x8000, 0xa000)`
the stack-guard page (index 6) is present-only, a trampoline page
(index 8) is present+writable, and a low page (index 5) is
present+no-cache+no-execute. -/
theorem remap_first_2mb_flags_witness :
    remapP1Entry 0x6000 0x8000 0xa000 6 = Entry.setAddr 0x6000 PRESENT ∧
    remapP1Entry 0x6000 0x8000 0xa000 8 =
      Entry.setAddr (8 * 4096) (PRESENT ||| WRITABLE) ∧
    remapP1Entry 0x6000 0x8000 0xa000 5 =
      Entry.setAddr (5 * 4096) (PRESENT ||| NO_CACHE ||| NO_EXECUTE) := by
  refine ⟨((remap_first_2mb_flags 0x6000 0x8000 0xa000 6).2.2 (by norm_num)
      (by norm_num)).1 (by norm_num),
    ((remap_first_2mb_flags 0x6000 0x8000 0xa000 8).2.2 (by norm_num)
      (by norm_num)).2.1 (by norm_num) (by norm_num) (by norm_num),
    ((remap_first_2mb_flags 0x6000 0x8000 0xa000 5).2.2 (by norm_num)
      (by norm_num)).2.2.1 (by norm_num) (by norm_num) (by decide)⟩

end Svm
